import Mathlib

/-!
The Abyss fact board (`src/app.js`).

A shallow embedding of the browser widget in `src/app.js`: the values that
`res.json()` can deliver, the rendering expression of `loadFacts`
(lines 9-11), the network as a state machine answering requests, and the two
asynchronous operations `loadFacts` (lines 6-12) and the submit handler
(lines 14-24), followed by theorems about them.

A JavaScript string is taken as a `String`, a sequence of Unicode characters;
strings holding an unpaired surrogate code unit are outside the model. A promise
is taken by the way it ends (`Outcome`), and a run of an operation yields the
page once everything the operation started has run as far as it can, together
with the log of what it did, in order.
-/

namespace Abyss

/-! ## JavaScript values delivered by `res.json()` -/

/-- A JavaScript value as produced by parsing JSON, plus `undefined`, which
property reads yield for a missing property. A number is carried as the string
that JavaScript prints for it. An object keeps its members in source order. -/
inductive JsVal where
  | undefined
  | null
  | bool (b : Bool)
  | num (shown : String)
  | str (s : String)
  | arr (items : List JsVal)
  | obj (members : List (String × JsVal))

/-- The errors a promise of this program can be rejected with. -/
inductive JsError where
  | TypeError
  | SyntaxError
  | Other (name : String)
  deriving DecidableEq, Repr

deriving instance DecidableEq for Except

/-- Own property lookup on the members of a parsed object: when a key occurs
more than once the last occurrence is the one the object holds. -/
def getOwn (key : String) : List (String × JsVal) → Option JsVal
  | [] => none
  | (k, v) :: rest =>
    match getOwn key rest with
    | some later => some later
    | none => if k = key then some v else none

/-- The read `fact.text` of line 10. Reading a property of `null` or
`undefined` throws; an object without the member, and every primitive or
array, gives `undefined`. -/
def getText : JsVal → Except JsError JsVal
  | .undefined => .error .TypeError
  | .null => .error .TypeError
  | .obj members =>
    match getOwn "text" members with
    | some v => .ok v
    | none => .ok .undefined
  | _ => .ok .undefined

/-- Whether a value is `null` or `undefined`. -/
def isNullish : JsVal → Bool
  | .undefined => true
  | .null => true
  | _ => false

mutual
/-- The string conversion a template literal applies to an interpolated value.
An array prints as the comma join of its elements; a plain object prints as
`[object Object]`, unless it has a member `toString` (never callable for parsed
data), in which case the conversion throws. -/
def toStr : JsVal → Except JsError String
  | .undefined => .ok "undefined"
  | .null => .ok "null"
  | .bool true => .ok "true"
  | .bool false => .ok "false"
  | .num shown => .ok shown
  | .str s => .ok s
  | .arr items => joinComma items
  | .obj members =>
    match getOwn "toString" members with
    | some _ => .error .TypeError
    | none => .ok "[object Object]"
/-- The comma join of the elements of an array, left to right: `null` and
`undefined` elements print as the empty string, every other element through
the string conversion. -/
def joinComma : List JsVal → Except JsError String
  | [] => .ok ""
  | v :: rest =>
    match (if isNullish v then .ok "" else toStr v) with
    | .error e => .error e
    | .ok s =>
      match rest with
      | [] => .ok s
      | _ :: _ =>
        match joinComma rest with
        | .error e => .error e
        | .ok t => .ok (s ++ "," ++ t)
end

/-! ## The rendering expression of `loadFacts` -/

/-- The opening tag of the container every fact is rendered into (line 10). -/
def blockOpen : String := "<div class=\"bg-gray-800 p-3 rounded\">"

/-- The closing tag of the container (line 10). -/
def blockClose : String := "</div>"

/-- The template literal of line 10 applied to one element of the fetched
array: read `text`, convert it to a string, wrap it in the container. -/
def renderFact (fact : JsVal) : Except JsError String :=
  match getText fact with
  | .error e => .error e
  | .ok v =>
    match toStr v with
    | .error e => .error e
    | .ok s => .ok (blockOpen ++ s ++ blockClose)

/-- The call `facts.map(fact => ...)` on the elements of an array, left to
right, stopping at the first element whose callback throws. -/
def mapFacts : List JsVal → Except JsError (List String)
  | [] => .ok []
  | fact :: rest =>
    match renderFact fact with
    | .error e => .error e
    | .ok block =>
      match mapFacts rest with
      | .error e => .error e
      | .ok blocks => .ok (block :: blocks)

/-- The right-hand side of the assignment of lines 9-11:
`facts.map(...).join('')`. Only an array has a callable `map`; for every other
parsed value the call throws. -/
def renderFacts : JsVal → Except JsError String
  | .arr items =>
    match mapFacts items with
    | .error e => .error e
    | .ok blocks => .ok (String.join blocks)
  | _ => .error .TypeError

/-! ## `JSON.stringify({ text })` -/

/-- A lowercase hexadecimal digit. -/
def hexDigit (n : Nat) : Char :=
  if n < 10 then Char.ofNat (48 + n) else Char.ofNat (87 + n)

/-- The escape `\uXXXX` of a character below U+10000. -/
def unicodeEscape (c : Char) : String :=
  "\\u" ++ String.mk [hexDigit (c.toNat / 4096 % 16), hexDigit (c.toNat / 256 % 16),
    hexDigit (c.toNat / 16 % 16), hexDigit (c.toNat % 16)]

/-- How `JSON.stringify` writes one character of a string: the short escapes
for backspace, tab, line feed, form feed, carriage return, the double quote and
the backslash, `\u00XX` for the other control characters, and every other
character as itself. (The one further case of `JSON.stringify`, an unpaired
surrogate, is no character here.) -/
def quoteChar (c : Char) : String :=
  if c.toNat = 8 then "\\b"
  else if c.toNat = 9 then "\\t"
  else if c.toNat = 10 then "\\n"
  else if c.toNat = 12 then "\\f"
  else if c.toNat = 13 then "\\r"
  else if c.toNat = 34 then "\\\""
  else if c.toNat = 92 then "\\\\"
  else if c.toNat < 32 then unicodeEscape c
  else String.singleton c

/-- The JSON string literal for a string. -/
def quoteJSONString (s : String) : String :=
  "\"" ++ String.join (s.toList.map quoteChar) ++ "\""

/-- The value of `JSON.stringify({ text })` (line 20) for a string `text`: an
object with the single member `text`. -/
def stringifyTextObject (text : String) : String :=
  "\x7b" ++ quoteJSONString "text" ++ ":" ++ quoteJSONString text ++ "\x7d"

/-! ## The network and the page -/

/-- How a promise ends: fulfilled with a value, rejected with an error, or
never settled. -/
inductive Outcome (α : Type) where
  | fulfilled (value : α)
  | rejected (error : JsError)
  | pending

/-- The request methods the program uses. -/
inductive Method where
  | GET
  | POST
  deriving DecidableEq, Repr

/-- An HTTP request as passed to `fetch`. -/
structure Request where
  method : Method
  url : String
  headers : List (String × String)
  body : Option String
  deriving DecidableEq, Repr

/-- An HTTP response as far as the program can look at it: the status (never
read) and how the promise of `res.json()` ends. -/
structure Response where
  status : Nat
  json : Outcome JsVal

/-- The remote service together with the network in front of it: a state
machine that answers each request with the way the promise of `fetch` ends. -/
structure Backend (σ : Type) where
  serve : σ → Request → σ × Outcome Response

/-- What the program does that can be seen from outside, in order. -/
inductive Event where
  | preventDefault
  | request (r : Request)
  | setInput (value : String)
  | setList (markup : String)
  | unhandledRejection (e : JsError)
  deriving DecidableEq, Repr

/-- The page and the network at one moment: the value of the input field, the
markup last assigned to the list container, whether the default action of the
submit event being handled is prevented, the state of the backend, and the log
of events so far. -/
structure World (σ : Type) where
  inputValue : String
  listInnerHTML : String
  defaultPrevented : Bool
  net : σ
  trace : List Event

/-- The address of the collection resource (lines 7 and 17). -/
def factsURL : String := "https://the-abyss-backend.up.railway.app/facts"

/-- The request of `fetch(url)` with no options (line 7): a GET without
headers of the program and without body. -/
def listRequest : Request :=
  { method := .GET, url := factsURL, headers := [], body := none }

/-- The request of lines 17-21 for the text read from the input field. -/
def createRequest (text : String) : Request :=
  { method := .POST, url := factsURL,
    headers := [("Content-Type", "application/json")],
    body := some (stringifyTextObject text) }

/-- The call `fetch(req)`: the request goes out, the backend moves on, and the
promise ends the way the backend answers. -/
def fetch {σ : Type} (B : Backend σ) (w : World σ) (req : Request) :
    World σ × Outcome Response :=
  ({ w with net := (B.serve w.net req).1, trace := w.trace ++ [.request req] },
    (B.serve w.net req).2)

/-! ## The two operations -/

/-- The async function `loadFacts` (lines 6-12): the world once the call has
run as far as it can, and how its promise ends. An `await` on a rejected promise
rejects the promise of `loadFacts`; an `await` on a promise that never settles
leaves it pending. The assignment to `list.innerHTML` happens only after its
right-hand side has been evaluated without throwing. -/
def loadFacts {σ : Type} (B : Backend σ) (w : World σ) : World σ × Outcome Unit :=
  match fetch B w listRequest with
  | (w1, .rejected e) => (w1, .rejected e)
  | (w1, .pending) => (w1, .pending)
  | (w1, .fulfilled res) =>
    match res.json with
    | .rejected e => (w1, .rejected e)
    | .pending => (w1, .pending)
    | .fulfilled facts =>
      match renderFacts facts with
      | .error e => (w1, .rejected e)
      | .ok markup =>
        ({ w1 with listInnerHTML := markup, trace := w1.trace ++ [.setList markup] },
          .fulfilled ())

/-- A call `loadFacts();` whose promise is dropped (lines 23 and 26): the load
runs, nothing waits for it, and a rejection of its promise is left unhandled.
The caller goes on normally whatever happens to the load. -/
def callLoadFacts {σ : Type} (B : Backend σ) (w : World σ) : World σ :=
  match loadFacts B w with
  | (w1, .rejected e) => { w1 with trace := w1.trace ++ [.unhandledRejection e] }
  | (w1, _) => w1

/-- The submit handler (lines 14-24): the world once the handler and the load
it starts have run as far as they can, and how the handler's promise ends. -/
def submitHandler {σ : Type} (B : Backend σ) (w : World σ) : World σ × Outcome Unit :=
  let w0 : World σ :=
    { w with defaultPrevented := true, trace := w.trace ++ [.preventDefault] }
  let text := w0.inputValue
  match fetch B w0 (createRequest text) with
  | (w1, .rejected e) => (w1, .rejected e)
  | (w1, .pending) => (w1, .pending)
  | (w1, .fulfilled _) =>
    let w2 : World σ := { w1 with inputValue := "", trace := w1.trace ++ [.setInput ""] }
    (callLoadFacts B w2, .fulfilled ())

/-- Program start (line 26): the rest of the script is the single call
`loadFacts();`, after which the script completes normally. -/
def start {σ : Type} (B : Backend σ) (w : World σ) : World σ × Except JsError Unit :=
  (callLoadFacts B w, .ok ())

/-- The world right after the submit handler has issued its create request
(lines 15-21). -/
def afterPost {σ : Type} (B : Backend σ) (w : World σ) : World σ :=
  (fetch B { w with defaultPrevented := true, trace := w.trace ++ [.preventDefault] }
    (createRequest w.inputValue)).1

/-- The world right after the submit handler has cleared the input field
(line 22), which is the world in which it calls `loadFacts` (line 23). -/
def afterClear {σ : Type} (B : Backend σ) (w : World σ) : World σ :=
  { afterPost B w with inputValue := "", trace := (afterPost B w).trace ++ [.setInput ""] }

/-! ## Vocabulary of the specification -/

/-- The text of a fact: the value is an object whose `text` member is a
string; further members, such as those a server attaches, are allowed. -/
def textOf : JsVal → Option String
  | .obj members =>
    match getOwn "text" members with
    | some (.str t) => some t
    | _ => none
  | _ => none

/-- The value is a fact with text `t`. -/
def HasText (v : JsVal) (t : String) : Prop := textOf v = some t

instance (v : JsVal) (t : String) : Decidable (HasText v t) := by
  unfold HasText; infer_instance

/-- A fact as the program sends it: an object with the single member `text`. -/
def factOf (t : String) : JsVal := .obj [("text", .str t)]

/-- The rendered block for a text: the fixed container around the text. -/
def block (t : String) : String := blockOpen ++ t ++ blockClose

/-- The requests among a list of events, in order. -/
def requestsOf : List Event → List Request
  | [] => []
  | .request r :: rest => r :: requestsOf rest
  | _ :: rest => requestsOf rest

/-! ## Reading back the JSON text of a create request -/

/-- The value of a hexadecimal digit, of either case. -/
def hexValue (c : Char) : Option Nat :=
  if 48 ≤ c.toNat ∧ c.toNat ≤ 57 then some (c.toNat - 48)
  else if 97 ≤ c.toNat ∧ c.toNat ≤ 102 then some (c.toNat - 87)
  else if 65 ≤ c.toNat ∧ c.toNat ≤ 70 then some (c.toNat - 55)
  else none

/-- The character a two-character JSON escape stands for, given the character
after the backslash. -/
def unescape (c : Char) : Option Char :=
  if c.toNat = 34 then some (Char.ofNat 34)
  else if c.toNat = 92 then some (Char.ofNat 92)
  else if c.toNat = 47 then some (Char.ofNat 47)
  else if c.toNat = 98 then some (Char.ofNat 8)
  else if c.toNat = 102 then some (Char.ofNat 12)
  else if c.toNat = 110 then some (Char.ofNat 10)
  else if c.toNat = 114 then some (Char.ofNat 13)
  else if c.toNat = 116 then some (Char.ofNat 9)
  else none

/-- Where a reader of a JSON string literal stands: between characters, right
after a backslash, or inside a `\u` escape with the value and the number of the
digits read so far. -/
inductive Reading where
  | plain
  | escaped
  | unicode (value : Nat) (count : Nat)

/-- Reads a JSON string literal from after its opening quote to its closing
quote: the characters it denotes and the input left after the closing quote. -/
def readString : Reading → List Char → Option (List Char × List Char)
  | _, [] => none
  | .plain, c :: rest =>
    if c.toNat = 34 then some ([], rest)
    else if c.toNat = 92 then readString .escaped rest
    else if c.toNat < 32 then none
    else (readString .plain rest).map fun p => (c :: p.1, p.2)
  | .escaped, c :: rest =>
    if c.toNat = 117 then readString (.unicode 0 0) rest
    else
      match unescape c with
      | none => none
      | some d => (readString .plain rest).map fun p => (d :: p.1, p.2)
  | .unicode value count, c :: rest =>
    match hexValue c with
    | none => none
    | some h =>
      if count = 3 then
        (readString .plain rest).map fun p => (Char.ofNat (16 * value + h) :: p.1, p.2)
      else readString (.unicode (16 * value + h) (count + 1)) rest

/-- Reads the JSON text of an object with the single member `text` holding a
string, written without white space: the string, if the input is such a text. -/
def readTextObject (s : String) : Option String :=
  match s.data with
  | c0 :: c1 :: c2 :: c3 :: c4 :: c5 :: c6 :: c7 :: c8 :: rest =>
    if [c0, c1, c2, c3, c4, c5, c6, c7, c8] = "\x7b\"text\":\"".data then
      match readString .plain rest with
      | some (cs, [c]) => if c.toNat = 125 then some (String.mk cs) else none
      | _ => none
    else none
  | _ => none

/-! ## A scripted backend for concrete runs -/

/-- A backend that answers the requests it receives with the outcomes of a
script, in order, whatever the request; once the script is used up requests
stay unanswered. -/
def scripted : Backend (List (Outcome Response)) :=
  { serve := fun script _ =>
      match script with
      | [] => ([], .pending)
      | out :: rest => (rest, out) }

/-- A page showing `shown`, with `typed` in the input field, no event logged,
in front of a scripted backend. -/
def page (typed shown : String) (script : List (Outcome Response)) :
    World (List (Outcome Response)) :=
  { inputValue := typed, listInnerHTML := shown, defaultPrevented := false,
    net := script, trace := [] }

/-- A response with the given status whose body parses to the given value. -/
def jsonResponse (status : Nat) (v : JsVal) : Outcome Response :=
  .fulfilled { status := status, json := .fulfilled v }

/-! ## The remote collection -/

/-- A fact as the remote collection holds it (sections 3 and 6 of the
specification): its text, a string of any content, and whatever further
attributes the server assigned to it, such as an identifier or a timestamp. -/
structure Fact where
  text : String
  attributes : List (String × JsVal)

/-- The JSON object the list endpoint returns for a fact: the attributes of the
server and the member `text`, written last, so that it is the `text` the object
holds whatever the attributes are called. -/
def Fact.toJs (f : Fact) : JsVal :=
  .obj (f.attributes ++ [("text", .str f.text)])

/-- Modelled from the spec: the remote collection resource of section 6, which
is a service outside `src/app.js`. Its state is the collection, a sequence of
facts. A GET of the facts address returns the collection as a JSON array, in
order, and leaves it as it is. A POST to the facts address that declares a JSON
body and whose body reads as an object with a string `text` is accepted: a fact
with the text received, and the attributes the server assigns (`assign`), is
appended to the collection. Every other request leaves the collection as it
is. -/
def factsBackend (assign : List Fact → String → List (String × JsVal)) :
    Backend (List Fact) :=
  { serve := fun collection req =>
      if req.url = factsURL then
        match req.method with
        | .GET => (collection, jsonResponse 200 (.arr (collection.map Fact.toJs)))
        | .POST =>
          if ("Content-Type", "application/json") ∈ req.headers then
            match req.body.bind readTextObject with
            | some text =>
              (collection ++ [{ text := text, attributes := assign collection text }],
                jsonResponse 201
                  (Fact.toJs { text := text, attributes := assign collection text }))
            | none => (collection, jsonResponse 400 .null)
          else (collection, jsonResponse 415 .null)
      else (collection, jsonResponse 404 .null) }

/-- A page showing `shown`, with `typed` in the input field, no event logged,
in front of the remote collection in the given state. -/
def factsPage (typed shown : String) (collection : List Fact) : World (List Fact) :=
  { inputValue := typed, listInnerHTML := shown, defaultPrevented := false,
    net := collection, trace := [] }

/-! ## Lemmas on rendering -/

theorem renderFact_of_hasText {v : JsVal} {t : String} (h : HasText v t) :
    renderFact v = .ok (block t) := by
  unfold HasText textOf at h
  split at h
  · rename_i members
    split at h
    · rename_i t0 hget
      cases h
      simp [renderFact, getText, hget, toStr, block]
    · cases h
  · cases h

theorem mapFacts_of_hasText {facts : List JsVal} {texts : List String}
    (h : List.Forall₂ HasText facts texts) :
    mapFacts facts = .ok (texts.map block) := by
  induction h with
  | nil => rfl
  | cons hd _ ih => simp [mapFacts, renderFact_of_hasText hd, ih]

theorem join_append (xs ys : List String) :
    String.join (xs ++ ys) = String.join xs ++ String.join ys := by
  apply String.ext
  simp [String.data_join]

theorem renderFact_of_nullish {v : JsVal} (h : isNullish v = true) :
    renderFact v = .error .TypeError := by
  cases v <;> simp_all [isNullish, renderFact, getText]

theorem mapFacts_of_nullish {items : List JsVal}
    (h : ∃ x ∈ items, isNullish x = true) : ∃ e, mapFacts items = .error e := by
  induction items with
  | nil => simp at h
  | cons a rest ih =>
    cases ha : renderFact a with
    | error e => exact ⟨e, by simp [mapFacts, ha]⟩
    | ok blk =>
      have hrest : ∃ x ∈ rest, isNullish x = true := by
        rcases h with ⟨x, hx, hn⟩
        rcases List.mem_cons.mp hx with rfl | hx
        · rw [renderFact_of_nullish hn] at ha; cases ha
        · exact ⟨x, hx, hn⟩
      rcases ih hrest with ⟨e, he⟩
      exact ⟨e, by simp [mapFacts, ha, he]⟩

theorem renderFacts_of_not_array {v : JsVal} (h : ∀ items, v ≠ .arr items) :
    renderFacts v = .error .TypeError := by
  cases v <;> first | rfl | exact absurd rfl (h _)

/-! ## Lemmas on the JSON text of a create request -/

theorem readString_quoteChar (c : Char) (rest : List Char) :
    readString .plain ((quoteChar c).data ++ rest) =
      (readString .plain rest).map fun p => (c :: p.1, p.2) := by
  unfold quoteChar
  split_ifs with h8 h9 h10 h12 h13 h34 h92 hlt
  · have : c = Char.ofNat 8 := by rw [← h8, Char.ofNat_toNat]
    subst this; rfl
  · have : c = Char.ofNat 9 := by rw [← h9, Char.ofNat_toNat]
    subst this; rfl
  · have : c = Char.ofNat 10 := by rw [← h10, Char.ofNat_toNat]
    subst this; rfl
  · have : c = Char.ofNat 12 := by rw [← h12, Char.ofNat_toNat]
    subst this; rfl
  · have : c = Char.ofNat 13 := by rw [← h13, Char.ofNat_toNat]
    subst this; rfl
  · have : c = Char.ofNat 34 := by rw [← h34, Char.ofNat_toNat]
    subst this; rfl
  · have : c = Char.ofNat 92 := by rw [← h92, Char.ofNat_toNat]
    subst this; rfl
  · have hc : c = Char.ofNat c.toNat := (Char.ofNat_toNat c).symm
    generalize c.toNat = n at *
    subst hc
    interval_cases n <;> rfl
  · simp [String.singleton, readString, h34, h92, hlt]
theorem readString_quoted (cs rest : List Char) :
    readString .plain
      ((String.join (cs.map quoteChar)).data ++ Char.ofNat 34 :: rest) = some (cs, rest) := by
  induction cs with
  | nil => rfl
  | cons c cs ih =>
    have hd : (String.join ((c :: cs).map quoteChar)).data =
        (quoteChar c).data ++ (String.join (cs.map quoteChar)).data := by
      simp [String.data_join]
    rw [hd, List.append_assoc, readString_quoteChar, ih]
    rfl

theorem stringifyTextObject_data (t : String) :
    (stringifyTextObject t).data =
      [Char.ofNat 123, Char.ofNat 34, Char.ofNat 116, Char.ofNat 101, Char.ofNat 120,
        Char.ofNat 116, Char.ofNat 34, Char.ofNat 58, Char.ofNat 34] ++
      ((String.join (t.data.map quoteChar)).data ++ [Char.ofNat 34, Char.ofNat 125]) := by
  have hkey : quoteJSONString "text" = "\"text\"" := by decide
  simp only [stringifyTextObject, hkey]
  simp [quoteJSONString, String.data_append]

theorem readTextObject_stringify (t : String) :
    readTextObject (stringifyTextObject t) = some t := by
  unfold readTextObject
  rw [stringifyTextObject_data]
  have h := readString_quoted t.data [Char.ofNat 125]
  simp only [List.cons_append, List.nil_append, h]
  rfl

/-! ## Lemmas on `loadFacts`, one for each way it can go -/

theorem loadFacts_fetch_rejected {σ : Type} (B : Backend σ) (w : World σ) (e : JsError)
    (h : (B.serve w.net listRequest).2 = .rejected e) :
    loadFacts B w = ((fetch B w listRequest).1, .rejected e) := by
  simp [loadFacts, fetch, h]

theorem loadFacts_fetch_pending {σ : Type} (B : Backend σ) (w : World σ)
    (h : (B.serve w.net listRequest).2 = .pending) :
    loadFacts B w = ((fetch B w listRequest).1, .pending) := by
  simp [loadFacts, fetch, h]

theorem loadFacts_json_rejected {σ : Type} (B : Backend σ) (w : World σ) (res : Response)
    (e : JsError) (h : (B.serve w.net listRequest).2 = .fulfilled res)
    (hj : res.json = .rejected e) :
    loadFacts B w = ((fetch B w listRequest).1, .rejected e) := by
  simp [loadFacts, fetch, h, hj]

theorem loadFacts_json_pending {σ : Type} (B : Backend σ) (w : World σ) (res : Response)
    (h : (B.serve w.net listRequest).2 = .fulfilled res) (hj : res.json = .pending) :
    loadFacts B w = ((fetch B w listRequest).1, .pending) := by
  simp [loadFacts, fetch, h, hj]

theorem loadFacts_render_error {σ : Type} (B : Backend σ) (w : World σ) (res : Response)
    (v : JsVal) (e : JsError) (h : (B.serve w.net listRequest).2 = .fulfilled res)
    (hj : res.json = .fulfilled v) (hr : renderFacts v = .error e) :
    loadFacts B w = ((fetch B w listRequest).1, .rejected e) := by
  simp [loadFacts, fetch, h, hj, hr]

theorem loadFacts_render_ok {σ : Type} (B : Backend σ) (w : World σ) (res : Response)
    (v : JsVal) (markup : String) (h : (B.serve w.net listRequest).2 = .fulfilled res)
    (hj : res.json = .fulfilled v) (hr : renderFacts v = .ok markup) :
    loadFacts B w =
      ({ (fetch B w listRequest).1 with
          listInnerHTML := markup,
          trace := (fetch B w listRequest).1.trace ++ [.setList markup] },
        .fulfilled ()) := by
  simp [loadFacts, fetch, h, hj, hr]

/-- Every way a load can go leaves the display either at its prior content or
at the markup rendered from the fetched value. -/
theorem loadFacts_display {σ : Type} (B : Backend σ) (w : World σ) :
    ((loadFacts B w).2 ≠ .fulfilled () ∧
        (loadFacts B w).1.listInnerHTML = w.listInnerHTML ∧
        (loadFacts B w).1.trace = w.trace ++ [.request listRequest]) ∨
    (∃ res v markup, (B.serve w.net listRequest).2 = .fulfilled res ∧
        res.json = .fulfilled v ∧ renderFacts v = .ok markup ∧
        (loadFacts B w).2 = .fulfilled () ∧
        (loadFacts B w).1.listInnerHTML = markup ∧
        (loadFacts B w).1.trace = w.trace ++ [.request listRequest, .setList markup]) := by
  cases h : (B.serve w.net listRequest).2 with
  | rejected e => left; simp [loadFacts_fetch_rejected B w e h, fetch]
  | pending => left; simp [loadFacts_fetch_pending B w h, fetch]
  | fulfilled res =>
    cases hj : res.json with
    | rejected e => left; simp [loadFacts_json_rejected B w res e h hj, fetch]
    | pending => left; simp [loadFacts_json_pending B w res h hj, fetch]
    | fulfilled v =>
      cases hr : renderFacts v with
      | error e => left; simp [loadFacts_render_error B w res v e h hj hr, fetch]
      | ok markup =>
        right
        exact ⟨res, v, markup, rfl, hj, hr, by
          simp [loadFacts_render_ok B w res v markup h hj hr, fetch]⟩

/-- The backend state a load leaves behind is the one after its list request. -/
theorem loadFacts_net {σ : Type} (B : Backend σ) (w : World σ) :
    (loadFacts B w).1.net = (B.serve w.net listRequest).1 := by
  cases h : (B.serve w.net listRequest).2 with
  | rejected e => simp [loadFacts_fetch_rejected B w e h, fetch]
  | pending => simp [loadFacts_fetch_pending B w h, fetch]
  | fulfilled res =>
    cases hj : res.json with
    | rejected e => simp [loadFacts_json_rejected B w res e h hj, fetch]
    | pending => simp [loadFacts_json_pending B w res h hj, fetch]
    | fulfilled v =>
      cases hr : renderFacts v with
      | error e => simp [loadFacts_render_error B w res v e h hj hr, fetch]
      | ok markup => simp [loadFacts_render_ok B w res v markup h hj hr, fetch]

/-- A load never touches the input field. -/
theorem loadFacts_inputValue {σ : Type} (B : Backend σ) (w : World σ) :
    (loadFacts B w).1.inputValue = w.inputValue := by
  cases h : (B.serve w.net listRequest).2 with
  | rejected e => simp [loadFacts_fetch_rejected B w e h, fetch]
  | pending => simp [loadFacts_fetch_pending B w h, fetch]
  | fulfilled res =>
    cases hj : res.json with
    | rejected e => simp [loadFacts_json_rejected B w res e h hj, fetch]
    | pending => simp [loadFacts_json_pending B w res h hj, fetch]
    | fulfilled v =>
      cases hr : renderFacts v with
      | error e => simp [loadFacts_render_error B w res v e h hj hr, fetch]
      | ok markup => simp [loadFacts_render_ok B w res v markup h hj hr, fetch]

/-- A load never touches the submit event. -/
theorem loadFacts_defaultPrevented {σ : Type} (B : Backend σ) (w : World σ) :
    (loadFacts B w).1.defaultPrevented = w.defaultPrevented := by
  cases h : (B.serve w.net listRequest).2 with
  | rejected e => simp [loadFacts_fetch_rejected B w e h, fetch]
  | pending => simp [loadFacts_fetch_pending B w h, fetch]
  | fulfilled res =>
    cases hj : res.json with
    | rejected e => simp [loadFacts_json_rejected B w res e h hj, fetch]
    | pending => simp [loadFacts_json_pending B w res h hj, fetch]
    | fulfilled v =>
      cases hr : renderFacts v with
      | error e => simp [loadFacts_render_error B w res v e h hj hr, fetch]
      | ok markup => simp [loadFacts_render_ok B w res v markup h hj hr, fetch]

/-! ## Lemmas on the dropped call and on the submit handler -/

theorem callLoadFacts_defaultPrevented {σ : Type} (B : Backend σ) (w : World σ) :
    (callLoadFacts B w).defaultPrevented = w.defaultPrevented := by
  have h := loadFacts_defaultPrevented B w
  simp only [callLoadFacts]
  split <;> simp_all


theorem requestsOf_append (xs ys : List Event) :
    requestsOf (xs ++ ys) = requestsOf xs ++ requestsOf ys := by
  induction xs with
  | nil => rfl
  | cons a rest ih => cases a <;> simp [requestsOf, ih]

/-- The dropped call issues the list request first and no request after it,
shows what the load shows, leaves the input field alone, and logs a rejection of
the load as unhandled. -/
theorem callLoadFacts_effects {σ : Type} (B : Backend σ) (w : World σ) :
    ∃ tail, (callLoadFacts B w).trace = w.trace ++ [.request listRequest] ++ tail ∧
      requestsOf tail = [] ∧
      (callLoadFacts B w).inputValue = w.inputValue ∧
      (callLoadFacts B w).listInnerHTML = (loadFacts B w).1.listInnerHTML ∧
      (∀ e, (loadFacts B w).2 = .rejected e → tail = [.unhandledRejection e]) ∧
      ((∀ e, (loadFacts B w).2 ≠ .rejected e) → ∀ e, .unhandledRejection e ∉ tail) := by
  have hin := loadFacts_inputValue B w
  rcases loadFacts_display B w with ⟨hne, _, ht⟩ | ⟨_, _, m, _, _, _, hok, _, ht⟩
  · cases hout : (loadFacts B w).2 with
    | fulfilled u => exact absurd hout hne
    | pending =>
      refine ⟨[], ?_, rfl, ?_, ?_, ?_, ?_⟩
      · simp only [callLoadFacts]; split <;> simp_all
      · simp only [callLoadFacts]; split <;> simp_all
      · simp only [callLoadFacts]; split <;> simp_all
      · intro e he; cases he
      · intro _ e; simp
    | rejected e =>
      refine ⟨[.unhandledRejection e], ?_, rfl, ?_, ?_, ?_, ?_⟩
      · simp only [callLoadFacts]; split <;> simp_all
      · simp only [callLoadFacts]; split <;> simp_all
      · simp only [callLoadFacts]; split <;> simp_all
      · intro e' he'; cases he'; rfl
      · intro h; exact absurd rfl (h e)
  · refine ⟨[.setList m], ?_, rfl, ?_, ?_, ?_, ?_⟩
    · simp only [callLoadFacts]; split <;> simp_all
    · simp only [callLoadFacts]; split <;> simp_all
    · simp only [callLoadFacts]; split <;> simp_all
    · intro e he; rw [hok] at he; cases he
    · intro _ e; simp

theorem submitHandler_post_rejected {σ : Type} (B : Backend σ) (w : World σ) (e : JsError)
    (h : (B.serve w.net (createRequest w.inputValue)).2 = .rejected e) :
    submitHandler B w = (afterPost B w, .rejected e) := by
  simp [submitHandler, afterPost, fetch, h]

theorem submitHandler_post_pending {σ : Type} (B : Backend σ) (w : World σ)
    (h : (B.serve w.net (createRequest w.inputValue)).2 = .pending) :
    submitHandler B w = (afterPost B w, .pending) := by
  simp [submitHandler, afterPost, fetch, h]

theorem submitHandler_post_fulfilled {σ : Type} (B : Backend σ) (w : World σ)
    (res : Response)
    (h : (B.serve w.net (createRequest w.inputValue)).2 = .fulfilled res) :
    submitHandler B w = (callLoadFacts B (afterClear B w), .fulfilled ()) := by
  simp [submitHandler, afterClear, afterPost, fetch, h]

theorem afterPost_trace {σ : Type} (B : Backend σ) (w : World σ) :
    (afterPost B w).trace =
      w.trace ++ [.preventDefault, .request (createRequest w.inputValue)] := by
  simp [afterPost, fetch]

theorem afterClear_trace {σ : Type} (B : Backend σ) (w : World σ) :
    (afterClear B w).trace =
      w.trace ++ [.preventDefault, .request (createRequest w.inputValue), .setInput ""] := by
  simp [afterClear, afterPost_trace]

/-- When the create request gets a response and the list request that follows
returns an array of facts, the submit handler leaves the display at the blocks
of those facts, the last one after the others. -/
theorem submitHandler_display_of_list_answer {σ : Type} (B : Backend σ) (w : World σ)
    (res res' : Response) (collection : List JsVal) (texts : List String) (fact : JsVal)
    (hpost : (B.serve w.net (createRequest w.inputValue)).2 = .fulfilled res)
    (hlist : (B.serve (B.serve w.net (createRequest w.inputValue)).1 listRequest).2 =
      .fulfilled res')
    (hjson : res'.json = .fulfilled (.arr (collection ++ [fact])))
    (hcollection : List.Forall₂ HasText collection texts)
    (hfact : HasText fact w.inputValue) :
    (submitHandler B w).1.listInnerHTML =
      String.join (texts.map fun t => blockOpen ++ t ++ blockClose) ++
        (blockOpen ++ w.inputValue ++ blockClose) ∧
    ∃ before after, (submitHandler B w).1.listInnerHTML =
      before ++ (blockOpen ++ w.inputValue ++ blockClose) ++ after := by
  have hall : List.Forall₂ HasText (collection ++ [fact]) (texts ++ [w.inputValue]) :=
    List.rel_append hcollection (List.Forall₂.cons hfact List.Forall₂.nil)
  have hr : renderFacts (.arr (collection ++ [fact])) =
      .ok (String.join (texts.map block) ++ block w.inputValue) := by
    simp [renderFacts, mapFacts_of_hasText hall, join_append, String.join]
  have hnet : (afterClear B w).net = (B.serve w.net (createRequest w.inputValue)).1 := by
    simp [afterClear, afterPost, fetch]
  have hlist2 : (B.serve (afterClear B w).net listRequest).2 = .fulfilled res' := by
    rw [hnet, hlist]
  have hshow : (submitHandler B w).1.listInnerHTML =
      String.join (texts.map block) ++ block w.inputValue := by
    rw [submitHandler_post_fulfilled B w res hpost]
    rcases callLoadFacts_effects B (afterClear B w) with ⟨_, _, _, _, hd, _, _⟩
    simp only [hd, loadFacts_render_ok B (afterClear B w) res' _ _ hlist2 hjson hr]
  refine ⟨hshow, String.join (texts.map block), "", ?_⟩
  rw [hshow]
  simp [block]

theorem callLoadFacts_net {σ : Type} (B : Backend σ) (w : World σ) :
    (callLoadFacts B w).net = (B.serve w.net listRequest).1 := by
  have h := loadFacts_net B w
  simp only [callLoadFacts]
  split <;> simp_all

theorem getOwn_append_last (key : String) (v : JsVal) (members : List (String × JsVal)) :
    getOwn key (members ++ [(key, v)]) = some v := by
  induction members with
  | nil => simp [getOwn]
  | cons m rest ih =>
    obtain ⟨k, u⟩ := m
    simp [getOwn, ih]

theorem hasText_toJs (f : Fact) : HasText f.toJs f.text := by
  simp [HasText, textOf, Fact.toJs, getOwn_append_last]

theorem hasText_map_toJs (collection : List Fact) :
    List.Forall₂ HasText (collection.map Fact.toJs) (collection.map Fact.text) := by
  induction collection with
  | nil => exact List.Forall₂.nil
  | cons f rest ih => exact List.Forall₂.cons (hasText_toJs f) ih

/-! ## The claims -/

/-- C1: when the list endpoint returns a sequence of N facts, `loadFacts`
succeeds and the markup it writes to the display is the concatenation of
exactly N blocks, in the order of the sequence, the i-th block being the fixed
container around the i-th fact's text, verbatim. -/
theorem loadFacts_renders_blocks {σ : Type} (B : Backend σ) (w : World σ)
    (res : Response) (facts : List JsVal) (texts : List String)
    (hfetch : (B.serve w.net listRequest).2 = .fulfilled res)
    (hjson : res.json = .fulfilled (.arr facts))
    (htexts : List.Forall₂ HasText facts texts) :
    (loadFacts B w).2 = .fulfilled () ∧
    (loadFacts B w).1.listInnerHTML =
      String.join (texts.map fun t => blockOpen ++ t ++ blockClose) ∧
    (texts.map fun t => blockOpen ++ t ++ blockClose).length = facts.length := by
  have hr : renderFacts (.arr facts) = .ok (String.join (texts.map block)) := by
    simp [renderFacts, mapFacts_of_hasText htexts]
  rw [loadFacts_render_ok B w res _ _ hfetch hjson hr]
  refine ⟨rfl, rfl, ?_⟩
  simp [htexts.length_eq]

/-- Scenario B of C1: a list endpoint returning `[{"text":"abyss is real"}]`
gives one block whose content is `abyss is real`. -/
theorem loadFacts_renders_blocks_witness :
    (loadFacts scripted
        (page "" "old" [jsonResponse 200 (.arr [factOf "abyss is real"])])).2 = .fulfilled () ∧
    (loadFacts scripted
        (page "" "old" [jsonResponse 200 (.arr [factOf "abyss is real"])])).1.listInnerHTML =
      "<div class=\"bg-gray-800 p-3 rounded\">abyss is real</div>" ∧
    [blockOpen ++ "abyss is real" ++ blockClose].length = 1 :=
  loadFacts_renders_blocks scripted
    (page "" "old" [jsonResponse 200 (.arr [factOf "abyss is real"])])
    { status := 200, json := .fulfilled (.arr [factOf "abyss is real"]) }
    [factOf "abyss is real"] ["abyss is real"] rfl rfl
    (List.Forall₂.cons (by decide) List.Forall₂.nil)

/-- C5: running `loadFacts` twice in succession, the list endpoint answering
the second request as it answered the first (no write in between), leaves the
display after the second run with the same markup as after the first, whatever
the display showed before. -/
theorem loadFacts_twice_same_display {σ : Type} (B : Backend σ) (w : World σ)
    (hsame : (B.serve (B.serve w.net listRequest).1 listRequest).2 =
      (B.serve w.net listRequest).2) :
    (loadFacts B (loadFacts B w).1).1.listInnerHTML = (loadFacts B w).1.listInnerHTML := by
  have hnet := loadFacts_net B w
  rcases loadFacts_display B (loadFacts B w).1 with ⟨_, h2, _⟩ | ⟨res2, v2, m2, hs2, hj2, hr2, _, h2, _⟩
  · exact h2
  · rw [hnet, hsame] at hs2
    rcases loadFacts_display B w with ⟨hne, _, _⟩ | ⟨res1, v1, m1, hs1, hj1, hr1, _, h1, _⟩
    · exfalso
      apply hne
      cases hr2' : renderFacts v2 with
      | error e => rw [hr2'] at hr2; cases hr2
      | ok m => rw [loadFacts_render_ok B w res2 v2 m hs2 hj2 hr2']
    · rw [hs1] at hs2
      cases hs2
      rw [hj1] at hj2
      cases hj2
      rw [hr1] at hr2
      cases hr2
      rw [h1, h2]

/-- A run of C5: two loads of the same one-fact collection over a page that
showed something else; the second load replaces, it does not append. -/
theorem loadFacts_twice_same_display_witness :
    (loadFacts scripted (loadFacts scripted (page "" "old"
        [jsonResponse 200 (.arr [factOf "a"]),
          jsonResponse 200 (.arr [factOf "a"])])).1).1.listInnerHTML =
      (loadFacts scripted (page "" "old"
        [jsonResponse 200 (.arr [factOf "a"]),
          jsonResponse 200 (.arr [factOf "a"])])).1.listInnerHTML ∧
    (loadFacts scripted (loadFacts scripted (page "" "old"
        [jsonResponse 200 (.arr [factOf "a"]),
          jsonResponse 200 (.arr [factOf "a"])])).1).1.listInnerHTML =
      "<div class=\"bg-gray-800 p-3 rounded\">a</div>" :=
  ⟨loadFacts_twice_same_display scripted (page "" "old"
      [jsonResponse 200 (.arr [factOf "a"]), jsonResponse 200 (.arr [factOf "a"])]) rfl,
    rfl⟩

/-- C6: after a successful `loadFacts` the display is a function of the fetched
value alone: two successful loads of the same fetched value, over any two pages
and backends, show the same markup, whatever each page showed before; and when
the list endpoint returns `[]` the load succeeds and the display becomes the
empty string. -/
theorem loadFacts_replaces_display {σ τ : Type} (B : Backend σ) (w : World σ)
    (B' : Backend τ) (w' : World τ) (res res' : Response) (v : JsVal)
    (hfetch : (B.serve w.net listRequest).2 = .fulfilled res)
    (hjson : res.json = .fulfilled v)
    (hfetch' : (B'.serve w'.net listRequest).2 = .fulfilled res')
    (hjson' : res'.json = .fulfilled v)
    (hok : (loadFacts B w).2 = .fulfilled ()) :
    (loadFacts B' w').2 = .fulfilled () ∧
    (loadFacts B w).1.listInnerHTML = (loadFacts B' w').1.listInnerHTML ∧
    (v = .arr [] → (loadFacts B w).1.listInnerHTML = "") := by
  cases hr : renderFacts v with
  | error e =>
    rw [loadFacts_render_error B w res v e hfetch hjson hr] at hok
    cases hok
  | ok markup =>
    rw [loadFacts_render_ok B w res v markup hfetch hjson hr,
      loadFacts_render_ok B' w' res' v markup hfetch' hjson' hr]
    refine ⟨rfl, rfl, ?_⟩
    intro hv
    subst hv
    have : (Except.ok markup : Except JsError String) = .ok "" := by
      rw [← hr]; rfl
    cases this
    rfl

/-- Scenario A of C6: the list endpoint returns `[]` to two pages that showed
different things; both end up showing the empty string. -/
theorem loadFacts_replaces_display_witness :
    (loadFacts scripted (page "" "something" [jsonResponse 200 (.arr [])])).1.listInnerHTML =
      (loadFacts scripted (page "x" "other" [jsonResponse 304 (.arr [])])).1.listInnerHTML ∧
    (loadFacts scripted (page "" "something" [jsonResponse 200 (.arr [])])).1.listInnerHTML = "" :=
  have h := loadFacts_replaces_display scripted
    (page "" "something" [jsonResponse 200 (.arr [])])
    scripted (page "x" "other" [jsonResponse 304 (.arr [])])
    { status := 200, json := .fulfilled (.arr []) }
    { status := 304, json := .fulfilled (.arr []) } (.arr []) rfl rfl rfl rfl rfl
  ⟨h.2.1, h.2.2 rfl⟩

/-- C9: failure atomicity of `loadFacts`. Whenever the load does not succeed the
display is left exactly at its prior content and no markup is written (the only
event of the load is its list request); and the load does fail when the fetch
fails, when the body does not parse as JSON, when the parsed value is not a
sequence, and when an element of the sequence is `null` or `undefined`. -/
theorem loadFacts_failure_keeps_display {σ : Type} (B : Backend σ) (w : World σ) :
    ((loadFacts B w).2 ≠ .fulfilled () →
      (loadFacts B w).1.listInnerHTML = w.listInnerHTML ∧
      (loadFacts B w).1.trace = w.trace ++ [.request listRequest]) ∧
    (∀ e, (B.serve w.net listRequest).2 = .rejected e →
      (loadFacts B w).2 = .rejected e) ∧
    (∀ res e, (B.serve w.net listRequest).2 = .fulfilled res → res.json = .rejected e →
      (loadFacts B w).2 = .rejected e) ∧
    (∀ res v, (B.serve w.net listRequest).2 = .fulfilled res → res.json = .fulfilled v →
      (∀ items, v ≠ .arr items) → (loadFacts B w).2 = .rejected .TypeError) ∧
    (∀ res items, (B.serve w.net listRequest).2 = .fulfilled res →
      res.json = .fulfilled (.arr items) → (∃ x ∈ items, isNullish x = true) →
      ∃ e, (loadFacts B w).2 = .rejected e) := by
  refine ⟨?_, ?_, ?_, ?_, ?_⟩
  · intro hne
    rcases loadFacts_display B w with ⟨_, hd, ht⟩ | ⟨_, _, _, _, _, _, hok, _, _⟩
    · exact ⟨hd, ht⟩
    · exact absurd hok hne
  · intro e h
    rw [loadFacts_fetch_rejected B w e h]
  · intro res e h hj
    rw [loadFacts_json_rejected B w res e h hj]
  · intro res v h hj hv
    rw [loadFacts_render_error B w res v .TypeError h hj (renderFacts_of_not_array hv)]
  · intro res items h hj hx
    rcases mapFacts_of_nullish hx with ⟨e, he⟩
    refine ⟨e, ?_⟩
    rw [loadFacts_render_error B w res (.arr items) e h hj (by simp [renderFacts, he])]

/-- A run of C9: the list endpoint returns `[{"text":"a"}, null]` to a page
showing `old`; the load is rejected and the page still shows `old`, with
nothing of the first fact written. -/
theorem loadFacts_failure_keeps_display_witness :
    (loadFacts scripted
      (page "" "old" [jsonResponse 200 (.arr [factOf "a", .null])])).2 ≠ .fulfilled () ∧
    (loadFacts scripted
      (page "" "old" [jsonResponse 200 (.arr [factOf "a", .null])])).1.listInnerHTML = "old" ∧
    (loadFacts scripted
      (page "" "old" [jsonResponse 200 (.arr [factOf "a", .null])])).1.trace =
      [.request listRequest] :=
  have hne : (loadFacts scripted
      (page "" "old" [jsonResponse 200 (.arr [factOf "a", .null])])).2 ≠ .fulfilled () := by
    intro h; cases h
  ⟨hne, (loadFacts_failure_keeps_display scripted
      (page "" "old" [jsonResponse 200 (.arr [factOf "a", .null])])).1 hne⟩

/-- C10: the rendering of fact lists is not injective. A one-fact list whose
text contains the closing and opening tags of the container renders to the very
markup of a two-fact list, so lists of different lengths give identical
displays. -/
theorem renderFacts_not_injective :
    renderFacts (.arr [factOf "a</div><div class=\"bg-gray-800 p-3 rounded\">b"]) =
      renderFacts (.arr [factOf "a", factOf "b"]) ∧
    renderFacts (.arr [factOf "a", factOf "b"]) =
      .ok ("<div class=\"bg-gray-800 p-3 rounded\">a</div>" ++
        "<div class=\"bg-gray-800 p-3 rounded\">b</div>") ∧
    [factOf "a</div><div class=\"bg-gray-800 p-3 rounded\">b"].length ≠
      [factOf "a", factOf "b"].length ∧
    (loadFacts scripted (page "" "" [jsonResponse 200
        (.arr [factOf "a</div><div class=\"bg-gray-800 p-3 rounded\">b"])])).1.listInnerHTML =
      (loadFacts scripted (page "" "" [jsonResponse 200
        (.arr [factOf "a", factOf "b"])])).1.listInnerHTML ∧
    ¬ Function.Injective renderFacts := by
  refine ⟨by decide, by decide, by decide, by decide, ?_⟩
  intro hinj
  have h := hinj (show renderFacts
      (.arr [factOf "a</div><div class=\"bg-gray-800 p-3 rounded\">b"]) =
    renderFacts (.arr [factOf "a", factOf "b"]) by decide)
  simp [factOf] at h

/-- C2: for every text in the input field at submission, the empty string
included, and whatever the backend answers, the events of the submit handler
contain exactly one create request: a POST to the facts resource with the header
`Content-Type: application/json` and the body `JSON.stringify` gives for the
object with that text, a JSON text that reads back as an object whose `text` is
that very text; for the empty text the body is `{"text":""}`. -/
theorem submitHandler_one_create_request {σ : Type} (B : Backend σ) (w : World σ) :
    ∃ events, (submitHandler B w).1.trace = w.trace ++ events ∧
      (requestsOf events).filter (fun r => decide (r.method = .POST)) =
        [createRequest w.inputValue] ∧
      (createRequest w.inputValue).method = .POST ∧
      (createRequest w.inputValue).url = "https://the-abyss-backend.up.railway.app/facts" ∧
      (createRequest w.inputValue).headers = [("Content-Type", "application/json")] ∧
      (createRequest w.inputValue).body = some (stringifyTextObject w.inputValue) ∧
      readTextObject (stringifyTextObject w.inputValue) = some w.inputValue ∧
      (createRequest "").body = some "\x7b\"text\":\"\"\x7d" := by
  have hread := readTextObject_stringify w.inputValue
  cases h : (B.serve w.net (createRequest w.inputValue)).2 with
  | rejected e =>
    refine ⟨[.preventDefault, .request (createRequest w.inputValue)], ?_,
      ?_, rfl, rfl, rfl, rfl, hread, rfl⟩
    · rw [submitHandler_post_rejected B w e h]; exact afterPost_trace B w
    · simp [requestsOf, createRequest]
  | pending =>
    refine ⟨[.preventDefault, .request (createRequest w.inputValue)], ?_,
      ?_, rfl, rfl, rfl, rfl, hread, rfl⟩
    · rw [submitHandler_post_pending B w h]; exact afterPost_trace B w
    · simp [requestsOf, createRequest]
  | fulfilled res =>
    rcases callLoadFacts_effects B (afterClear B w) with ⟨tail, ht, hreq, _, _, _, _⟩
    refine ⟨[.preventDefault, .request (createRequest w.inputValue), .setInput "",
      .request listRequest] ++ tail, ?_, ?_, rfl, rfl, rfl, rfl, hread, rfl⟩
    · rw [submitHandler_post_fulfilled B w res h]
      simp only [ht, afterClear_trace]
      simp
    · simp [requestsOf_append, requestsOf, hreq, createRequest, listRequest]

/-- C3: when the create request gets a response, the effects of the submit
handler are, in this order: default action prevented, one POST carrying the text
read at submission, the input field set to the empty string, one list request,
and after it no further request. The list request is issued by `loadFacts`
called on a page whose input field is already empty; and when the create request
does not complete (it fails or never settles) no list request is issued. -/
theorem submitHandler_effect_order {σ : Type} (B : Backend σ) (w : World σ) :
    (∀ res, (B.serve w.net (createRequest w.inputValue)).2 = .fulfilled res →
      ∃ tail,
        (submitHandler B w).1.trace =
          w.trace ++ [.preventDefault, .request (createRequest w.inputValue),
            .setInput "", .request listRequest] ++ tail ∧
        requestsOf tail = [] ∧
        (submitHandler B w).1.defaultPrevented = true ∧
        (submitHandler B w).1 = callLoadFacts B (afterClear B w) ∧
        (afterClear B w).inputValue = "" ∧
        (afterClear B w).trace =
          w.trace ++ [.preventDefault, .request (createRequest w.inputValue),
            .setInput ""]) ∧
    ((∀ res, (B.serve w.net (createRequest w.inputValue)).2 ≠ .fulfilled res) →
      (submitHandler B w).1.trace =
        w.trace ++ [.preventDefault, .request (createRequest w.inputValue)]) := by
  constructor
  · intro res h
    rcases callLoadFacts_effects B (afterClear B w) with ⟨tail, ht, hreq, _, _, _, _⟩
    refine ⟨tail, ?_, hreq, ?_, ?_, rfl, afterClear_trace B w⟩
    · rw [submitHandler_post_fulfilled B w res h]
      simp only [ht, afterClear_trace]
      simp
    · rw [submitHandler_post_fulfilled B w res h]
      rw [callLoadFacts_defaultPrevented]
      simp [afterClear, afterPost, fetch]
    · rw [submitHandler_post_fulfilled B w res h]
  · intro hne
    cases h : (B.serve w.net (createRequest w.inputValue)).2 with
    | rejected e => rw [submitHandler_post_rejected B w e h]; exact afterPost_trace B w
    | pending => rw [submitHandler_post_pending B w h]; exact afterPost_trace B w
    | fulfilled res => exact absurd h (hne res)

/-- Scenario C of C3: the user types `new fact` and submits; the create request
carries `{"text":"new fact"}`, then the input field is emptied, then the list
request goes out, then the display is written. -/
theorem submitHandler_effect_order_witness :
    (∃ tail,
      (submitHandler scripted (page "new fact" "old"
          [jsonResponse 201 .null, jsonResponse 200 (.arr [factOf "new fact"])])).1.trace =
        [] ++ [.preventDefault, .request (createRequest "new fact"), .setInput "",
          .request listRequest] ++ tail ∧
      requestsOf tail = []) ∧
    (submitHandler scripted (page "new fact" "old"
        [jsonResponse 201 .null, jsonResponse 200 (.arr [factOf "new fact"])])).1.trace =
      [.preventDefault,
        .request { method := .POST, url := factsURL,
                   headers := [("Content-Type", "application/json")],
                   body := some "\x7b\"text\":\"new fact\"\x7d" },
        .setInput "",
        .request { method := .GET, url := factsURL, headers := [], body := none },
        .setList "<div class=\"bg-gray-800 p-3 rounded\">new fact</div>"] :=
  ⟨((submitHandler_effect_order scripted (page "new fact" "old"
        [jsonResponse 201 .null, jsonResponse 200 (.arr [factOf "new fact"])])).1
      { status := 201, json := .fulfilled .null } rfl).imp
      fun _ h => ⟨h.1, h.2.1⟩,
    by decide⟩

/-- C4: round trip. For every text T in the input field and every state of the
remote collection, the backend accepts the create request the submit handler
sends and appends a fact with text T, exactly the text the request carries; the
load the handler triggers afterwards succeeds and writes the blocks of the
collection followed by the block of T, so the markup contains a block with
content T. -/
theorem submit_then_load_shows_text
    (assign : List Fact → String → List (String × JsVal)) (w : World (List Fact)) :
    ((factsBackend assign).serve w.net (createRequest w.inputValue)).1 =
      w.net ++ [{ text := w.inputValue, attributes := assign w.net w.inputValue }] ∧
    (submitHandler (factsBackend assign) w).1.net =
      w.net ++ [{ text := w.inputValue, attributes := assign w.net w.inputValue }] ∧
    (submitHandler (factsBackend assign) w).2 = .fulfilled () ∧
    (loadFacts (factsBackend assign) (afterClear (factsBackend assign) w)).2 =
      .fulfilled () ∧
    (submitHandler (factsBackend assign) w).1.listInnerHTML =
      String.join (w.net.map fun f => blockOpen ++ f.text ++ blockClose) ++
        (blockOpen ++ w.inputValue ++ blockClose) ∧
    ∃ before after, (submitHandler (factsBackend assign) w).1.listInnerHTML =
      before ++ (blockOpen ++ w.inputValue ++ blockClose) ++ after := by
  have hc : (factsBackend assign).serve w.net (createRequest w.inputValue) =
      (w.net ++ [{ text := w.inputValue, attributes := assign w.net w.inputValue }],
        jsonResponse 201
          (Fact.toJs { text := w.inputValue, attributes := assign w.net w.inputValue })) := by
    simp [factsBackend, createRequest, readTextObject_stringify]
  have hl : (factsBackend assign).serve
      (w.net ++ [{ text := w.inputValue, attributes := assign w.net w.inputValue }])
      listRequest =
      (w.net ++ [{ text := w.inputValue, attributes := assign w.net w.inputValue }],
        jsonResponse 200 (.arr (List.map Fact.toJs (w.net ++
          [({ text := w.inputValue, attributes := assign w.net w.inputValue } : Fact)])))) := by
    simp [factsBackend, listRequest]
  have hpost : ((factsBackend assign).serve w.net (createRequest w.inputValue)).2 =
      .fulfilled { status := 201, json := (.fulfilled
        (Fact.toJs { text := w.inputValue, attributes := assign w.net w.inputValue })) } := by
    rw [hc]; rfl
  have hnet : (afterClear (factsBackend assign) w).net =
      w.net ++ [{ text := w.inputValue, attributes := assign w.net w.inputValue }] := by
    simp [afterClear, afterPost, fetch, hc]
  have hlist : ((factsBackend assign).serve (afterClear (factsBackend assign) w).net
      listRequest).2 = .fulfilled { status := 200, json := (.fulfilled (.arr
        (w.net.map Fact.toJs ++
          [Fact.toJs { text := w.inputValue, attributes := assign w.net w.inputValue }]))) } := by
    rw [hnet, hl]; simp [jsonResponse]
  have hlist' : ((factsBackend assign).serve
      ((factsBackend assign).serve w.net (createRequest w.inputValue)).1 listRequest).2 =
      .fulfilled { status := 200, json := (.fulfilled (.arr
        (w.net.map Fact.toJs ++
          [Fact.toJs { text := w.inputValue, attributes := assign w.net w.inputValue }]))) } := by
    rw [hc, hl]; simp [jsonResponse]
  have hall : List.Forall₂ HasText
      (w.net.map Fact.toJs ++
        [Fact.toJs { text := w.inputValue, attributes := assign w.net w.inputValue }])
      (w.net.map Fact.text ++ [w.inputValue]) :=
    List.rel_append (hasText_map_toJs w.net)
      (List.Forall₂.cons (hasText_toJs _) List.Forall₂.nil)
  have hr : renderFacts (.arr (w.net.map Fact.toJs ++
      [Fact.toJs { text := w.inputValue, attributes := assign w.net w.inputValue }])) =
      .ok (String.join ((w.net.map Fact.text ++ [w.inputValue]).map block)) := by
    simp [renderFacts, mapFacts_of_hasText hall]
  have hshow := submitHandler_display_of_list_answer (factsBackend assign) w _ _
    (w.net.map Fact.toJs) (w.net.map Fact.text)
    (Fact.toJs { text := w.inputValue, attributes := assign w.net w.inputValue })
    hpost hlist' rfl (hasText_map_toJs w.net) (hasText_toJs _)
  have hmap : (w.net.map Fact.text).map (fun t => blockOpen ++ t ++ blockClose) =
      w.net.map fun f => blockOpen ++ f.text ++ blockClose := by
    simp [List.map_map, Function.comp_def]
  rw [hmap] at hshow
  refine ⟨by rw [hc], ?_, ?_, ?_, hshow.1, ?_⟩
  · rw [submitHandler_post_fulfilled _ w _ hpost, callLoadFacts_net, hnet, hl]
  · rw [submitHandler_post_fulfilled _ w _ hpost]
  · rw [loadFacts_render_ok _ _ _ _ _ hlist rfl hr]
  · exact ⟨String.join (w.net.map fun f => blockOpen ++ f.text ++ blockClose), "",
      by rw [hshow.1]; simp⟩

/-- A run of C4: the collection holds the fact `a`; the user submits `T`; the
backend appends the fact it read from the request, the list returns both facts,
and the display ends with the block of `T`. -/
theorem submit_then_load_shows_text_witness :
    (submitHandler (factsBackend fun _ _ => [("id", .num "2")])
        (factsPage "T" "old" [{ text := "a", attributes := [("id", .num "1")] }])).1.listInnerHTML =
      "<div class=\"bg-gray-800 p-3 rounded\">a</div>" ++
        "<div class=\"bg-gray-800 p-3 rounded\">T</div>" ∧
    (submitHandler (factsBackend fun _ _ => [("id", .num "2")])
        (factsPage "T" "old" [{ text := "a", attributes := [("id", .num "1")] }])).1.trace =
      [.preventDefault,
        .request { method := .POST, url := factsURL,
                   headers := [("Content-Type", "application/json")],
                   body := some "\x7b\"text\":\"T\"\x7d" },
        .setInput "",
        .request { method := .GET, url := factsURL, headers := [], body := none },
        .setList ("<div class=\"bg-gray-800 p-3 rounded\">a</div>" ++
          "<div class=\"bg-gray-800 p-3 rounded\">T</div>")] :=
  ⟨(submit_then_load_shows_text (fun _ _ => [("id", .num "2")])
      (factsPage "T" "old" [{ text := "a", attributes := [("id", .num "1")] }])).2.2.2.2.1,
    by decide⟩

/-- C7 as stated fails: when the create request itself fails, the `await` of
line 17 throws, line 22 is never reached and the input field keeps the text. -/
theorem submit_network_failure_keeps_input :
    (submitHandler scripted (page "x" "" [.rejected .TypeError])).1.inputValue = "x" ∧
    (submitHandler scripted (page "x" "" [.rejected .TypeError])).1.inputValue ≠ "" ∧
    (submitHandler scripted (page "x" "" [.rejected .TypeError])).1.trace =
      [.preventDefault, .request (createRequest "x")] := by
  decide

/-- C7, amended: whenever the create request gets a response, of any status,
the input field is the empty string after the handler has run and the handler's
promise is fulfilled, also when the load that follows fails; when the create
request itself fails, the handler's promise is rejected with that failure and
the input field keeps its value. -/
theorem submit_clears_input_on_response {σ : Type} (B : Backend σ) (w : World σ) :
    (∀ res, (B.serve w.net (createRequest w.inputValue)).2 = .fulfilled res →
      (submitHandler B w).1.inputValue = "" ∧ (submitHandler B w).2 = .fulfilled ()) ∧
    (∀ e, (B.serve w.net (createRequest w.inputValue)).2 = .rejected e →
      (submitHandler B w).1.inputValue = w.inputValue ∧
      (submitHandler B w).2 = .rejected e) := by
  constructor
  · intro res h
    rw [submitHandler_post_fulfilled B w res h]
    rcases callLoadFacts_effects B (afterClear B w) with ⟨_, _, _, hin, _, _, _⟩
    exact ⟨hin, rfl⟩
  · intro e h
    rw [submitHandler_post_rejected B w e h]
    exact ⟨by simp [afterPost, fetch], rfl⟩

/-- Runs of the amended C7: a 500 response to the create request, followed by a
failing load, still empties the input field. -/
theorem submit_clears_input_on_response_witness :
    (submitHandler scripted
      (page "x" "" [jsonResponse 500 .null, .rejected .TypeError])).1.inputValue = "" ∧
    (submitHandler scripted
      (page "x" "" [jsonResponse 500 .null, .rejected .TypeError])).2 = .fulfilled () :=
  (submit_clears_input_on_response scripted
    (page "x" "" [jsonResponse 500 .null, .rejected .TypeError])).1
    { status := 500, json := .fulfilled .null } rfl

/-- C8 as stated fails: with the list endpoint unreachable the promise of
`loadFacts` is rejected, yet program start completes normally and the submit
handler's promise is fulfilled; the rejection reaches neither caller and is left
unhandled. -/
theorem loadFacts_failure_not_observed :
    (loadFacts scripted (page "" "old" [.rejected .TypeError])).2 = .rejected .TypeError ∧
    (start scripted (page "" "old" [.rejected .TypeError])).2 = .ok () ∧
    (start scripted (page "" "old" [.rejected .TypeError])).1.trace =
      [.request listRequest, .unhandledRejection .TypeError] ∧
    (submitHandler scripted
      (page "x" "old" [jsonResponse 201 .null, .rejected .TypeError])).2 = .fulfilled () ∧
    (submitHandler scripted
      (page "x" "old" [jsonResponse 201 .null, .rejected .TypeError])).1.trace =
      [.preventDefault, .request (createRequest "x"), .setInput "",
        .request listRequest, .unhandledRejection .TypeError] :=
  ⟨rfl, rfl, rfl, rfl, rfl⟩

/-- C8, amended: the promise of `loadFacts` is rejected exactly when the fetch,
the JSON parse or the render fails, with the error of that step. Neither call
site waits for that promise: program start completes normally and, once the
create request has a response, the submit handler's promise is fulfilled,
whatever the load does; a rejection of the load is left as an unhandled
rejection, logged after the load's own events. -/
theorem loadFacts_rejection_dropped_by_callers {σ : Type} (B : Backend σ) (w : World σ) :
    (∀ e, (loadFacts B w).2 = .rejected e ↔
      ((B.serve w.net listRequest).2 = .rejected e ∨
        ∃ res, (B.serve w.net listRequest).2 = .fulfilled res ∧
          (res.json = .rejected e ∨
            ∃ v, res.json = .fulfilled v ∧ renderFacts v = .error e))) ∧
    (start B w).2 = .ok () ∧
    (∀ e, (loadFacts B w).2 = .rejected e →
      (start B w).1.trace = (loadFacts B w).1.trace ++ [.unhandledRejection e]) ∧
    (∀ res, (B.serve w.net (createRequest w.inputValue)).2 = .fulfilled res →
      (submitHandler B w).2 = .fulfilled () ∧
      ∀ e, (loadFacts B (afterClear B w)).2 = .rejected e →
        (submitHandler B w).1.trace =
          (loadFacts B (afterClear B w)).1.trace ++ [.unhandledRejection e]) := by
  have hcall : ∀ (u : World σ) e, (loadFacts B u).2 = .rejected e →
      (callLoadFacts B u).trace = (loadFacts B u).1.trace ++ [.unhandledRejection e] := by
    intro u e he
    simp only [callLoadFacts]
    split <;> simp_all
  refine ⟨?_, rfl, ?_, ?_⟩
  · intro e
    cases h : (B.serve w.net listRequest).2 with
    | rejected e' =>
      rw [loadFacts_fetch_rejected B w e' h]
      simp
    | pending =>
      rw [loadFacts_fetch_pending B w h]
      simp
    | fulfilled res =>
      cases hj : res.json with
      | rejected e' =>
        rw [loadFacts_json_rejected B w res e' h hj]
        simp [hj]
      | pending =>
        rw [loadFacts_json_pending B w res h hj]
        simp [hj]
      | fulfilled v =>
        cases hr : renderFacts v with
        | error e' =>
          rw [loadFacts_render_error B w res v e' h hj hr]
          simp [hj, hr]
        | ok markup =>
          rw [loadFacts_render_ok B w res v markup h hj hr]
          simp [hj, hr]
  · intro e he
    exact hcall w e he
  · intro res h
    rw [submitHandler_post_fulfilled B w res h]
    exact ⟨rfl, fun e he => hcall _ e he⟩

/-- A run of the amended C8: the create request is answered, the list endpoint
is unreachable; the load is rejected, the handler is fulfilled, and the rejection
is logged as unhandled. -/
theorem loadFacts_rejection_dropped_by_callers_witness :
    (submitHandler scripted
      (page "x" "old" [jsonResponse 201 .null, .rejected .TypeError])).2 = .fulfilled () ∧
    (submitHandler scripted
      (page "x" "old" [jsonResponse 201 .null, .rejected .TypeError])).1.trace =
      (loadFacts scripted (afterClear scripted
        (page "x" "old" [jsonResponse 201 .null, .rejected .TypeError]))).1.trace ++
        [.unhandledRejection .TypeError] :=
  have h := (loadFacts_rejection_dropped_by_callers scripted
    (page "x" "old" [jsonResponse 201 .null, .rejected .TypeError])).2.2.2
    { status := 201, json := .fulfilled .null } rfl
  ⟨h.1, h.2 .TypeError rfl⟩

end Abyss
